import Mathlib

/-!
# Sidechain data model of the mainchain (`src/sidechain.h`)

A shallow embedding of the records declared in `sidechain.h`, of their
`SerializationOp` templates and of the protocol constants, followed by the
properties of the specification that are settled against them.

Conventions of the embedding

* A byte is a `Fin 256`; a stream is a `List Byte`.  Writing appends to the end
  of the stream, reading consumes from its front and fails (`none`) where the
  C++ stream would throw.
* Fixed-width C++ integer types are the subtypes of `Nat` / `Int` holding
  exactly the representable values.
* `SerializationOp` is one function for both directions, selected by the
  `ser_action` argument, exactly as the template in the header.
-/

namespace Mainchain

/-! ## Constants (sidechain.h, lines 13-36) -/

/-- Number of blocks a withdrawal bundle has to gather its work score. -/
def SIDECHAIN_VERIFICATION_PERIOD : Int := 32

/-- Work score a withdrawal bundle needs. -/
def SIDECHAIN_MIN_WORKSCORE : Int := 16

/-- Max number of failures (blocks without commits) for a sidechain to activate. -/
def SIDECHAIN_ACTIVATION_MAX_FAILURES : Int := 32

/-- The amount of time a sidechain has to activate. -/
def SIDECHAIN_ACTIVATION_MAX_AGE : Int := 64

/-- The number of sidechains which may be signaled for activation at once. -/
def SIDECHAIN_ACTIVATION_MAX_SIGNALS : Int := 32

/-- The number of sidechains which may be active at once. -/
def SIDECHAIN_ACTIVATION_MAX_ACTIVE : Int := 256

/-- The current sidechain version. -/
def SIDECHAIN_VERSION_CURRENT : Int := 0

/-- The max supported sidechain version. -/
def SIDECHAIN_VERSION_MAX : Int := 0

/-! ## Machine types -/

/-- One octet of a stream. -/
abbrev Byte := Fin 256

/-- C++ `uint8_t`. -/
abbrev uint8_t := Fin 256

/-- C++ `char`, as the octet it occupies. -/
abbrev char := Fin 256

/-- C++ `uint16_t`. -/
abbrev uint16_t := Fin 65536

/-- C++ `uint32_t`. -/
abbrev uint32_t := Fin 4294967296

/-- C++ `uint64_t`. -/
abbrev uint64_t := Fin 18446744073709551616

/-- Two's-complement signed integers with `half` non-negative values. -/
abbrev SInt (half : Nat) := { i : Int // -(half : Int) ≤ i ∧ i < (half : Int) }

/-- C++ `int32_t` (and `int` on the supported platforms). -/
abbrev int32_t := SInt 2147483648

/-- C++ `int64_t`; `CAmount` is a typedef of it. -/
abbrev int64_t := SInt 9223372036854775808

/-- Amount in base units. -/
abbrev CAmount := int64_t

/-- Opaque blob of `n` bytes (`base_blob`), the carrier of `uint256` and `uint160`. -/
abbrev base_blob (n : Nat) := { l : List Byte // l.length = n }

/-- 256-bit hash. -/
abbrev uint256 := base_blob 32

/-- 160-bit hash. -/
abbrev uint160 := base_blob 20

/-- Key identifier: a `uint160`. -/
abbrev CKeyID := uint160

/-- C++ `std::string`: a byte sequence whose length fits `size_t`. -/
abbrev std_string := { l : List Byte // l.length < 18446744073709551616 }

/-- Value of a C++ character literal. -/
def charLit (c : Char) : char := ⟨c.toNat % 256, Nat.mod_lt _ (by decide)⟩

/-- Conversion of an `int` constant to the `int32_t` it is stored in. -/
def toInt32 (i : Int) : int32_t :=
  if h : -2147483648 ≤ i ∧ i < 2147483648 then ⟨i, by simpa using h⟩
  else ⟨0, by decide⟩

/-- Conversion of an `int` to `uint16_t` (reduction modulo 2^16). -/
def toUInt16 (i : Int) : uint16_t := ⟨(i % 65536).toNat, by omega⟩

/-! ## Vote tags (sidechain.h, lines 145-147) -/

/-- Tag of an upvote. -/
def SCDB_UPVOTE : char := charLit 'u'

/-- Tag of a downvote. -/
def SCDB_DOWNVOTE : char := charLit 'd'

/-- Tag of an abstention. -/
def SCDB_ABSTAIN : char := charLit 'a'

/-! ## Streams and the primitive serializers

`sidechain.h` uses the `READWRITE` and `ADD_SERIALIZE_METHODS` macros and the
`Serialize` / `Unserialize` overloads of the field types; they are declared in
`serialize.h`, `uint256.h`, `pubkey.h` and `primitives/transaction.h`. -/

/-- Serializer pair of one C++ type: what `READWRITE` of a value of that type
appends to a stream, and what it reads back from the front of one. -/
structure Codec (α : Type) where
  /-- Bytes appended when writing. -/
  Serialize : α → List Byte
  /-- Value read and the rest of the stream, or `none` at a read failure. -/
  Unserialize : List Byte → Option (α × List Byte)

/-- Little-endian representation of `v` on `n` bytes (the low `8 n` bits). -/
def leBytes : Nat → Nat → List Byte
  | 0, _ => []
  | n + 1, v => ⟨v % 256, Nat.mod_lt v (by decide)⟩ :: leBytes n (v / 256)

/-- Number denoted by a little-endian byte sequence. -/
def leValue : List Byte → Nat
  | [] => 0
  | b :: bs => b.val + 256 * leValue bs

/-- Take `n` bytes from the front of a stream; fails when fewer are left. -/
def readBytes (n : Nat) (s : List Byte) : Option (List Byte × List Byte) :=
  if n ≤ s.length then some (s.take n, s.drop n) else none

/-- Modelled from the spec: the serializers of the unsigned fixed-width
integers are in serialize.h, which is not among the sources; the spec asks
for a bit-exact fixed layout, taken here as `n` little-endian bytes. -/
def uintCodec (n m : Nat) (hm : 0 < m) : Codec (Fin m) where
  Serialize v := leBytes n v.val
  Unserialize s :=
    (readBytes n s).map fun p => (⟨leValue p.1 % m, Nat.mod_lt _ hm⟩, p.2)

/-- Signed reading of the bit pattern `u` for a type with `half` non-negative values. -/
def ofBits (half : Nat) (hh : 0 < half) (u : Nat) : SInt half :=
  have hlt : u % (2 * half) < 2 * half := Nat.mod_lt _ (by omega)
  if h : u % (2 * half) < half then ⟨((u % (2 * half) : Nat) : Int), by omega⟩
  else ⟨((u % (2 * half) : Nat) : Int) - ((2 * half : Nat) : Int), by omega⟩

/-- Modelled from the spec: the serializers of the signed fixed-width integers
are in serialize.h, which is not among the sources; taken here as the `n`
little-endian bytes of the two's-complement bit pattern. -/
def sintCodec (n half : Nat) (hh : 0 < half) : Codec (SInt half) where
  Serialize v := leBytes n (v.val % ((2 * half : Nat) : Int)).toNat
  Unserialize s := (readBytes n s).map fun p => (ofBits half hh (leValue p.1), p.2)

/-- Serializer of `uint8_t`. -/
def uint8Codec : Codec uint8_t := uintCodec 1 256 (by decide)

/-- Serializer of `char`. -/
def charCodec : Codec char := uintCodec 1 256 (by decide)

/-- Serializer of `uint16_t`. -/
def uint16Codec : Codec uint16_t := uintCodec 2 65536 (by decide)

/-- Serializer of `uint32_t`. -/
def uint32Codec : Codec uint32_t := uintCodec 4 4294967296 (by decide)

/-- Serializer of `int32_t` and `int`. -/
def int32Codec : Codec int32_t := sintCodec 4 2147483648 (by decide)

/-- Serializer of `int64_t`, hence of `CAmount`. -/
def int64Codec : Codec int64_t := sintCodec 8 9223372036854775808 (by decide)

/-- Modelled from the spec: the serializer of `base_blob` is in uint256.h,
which is not among the sources; a hash is written as its raw bytes. -/
def blobCodec (n : Nat) : Codec (base_blob n) where
  Serialize v := v.val
  Unserialize s :=
    if h : n ≤ s.length then
      some (⟨s.take n, by rw [List.length_take]; omega⟩, s.drop n)
    else none

/-- Serializer of `uint256`. -/
def uint256Codec : Codec uint256 := blobCodec 32

/-- Serializer of `uint160` and `CKeyID`. -/
def uint160Codec : Codec uint160 := blobCodec 20

/-- Modelled from the spec: `WriteCompactSize` is in serialize.h, which is not
among the sources; the length prefix of a string is taken in the compact-size
form: one byte below 253, else a marker byte and 2, 4 or 8 little-endian bytes. -/
def WriteCompactSize (nSize : Nat) : List Byte :=
  if nSize < 253 then leBytes 1 nSize
  else if nSize ≤ 65535 then (253 : Byte) :: leBytes 2 nSize
  else if nSize ≤ 4294967295 then (254 : Byte) :: leBytes 4 nSize
  else (255 : Byte) :: leBytes 8 nSize

/-- Modelled from the spec: `ReadCompactSize` is in serialize.h, which is not
among the sources; it is taken as the reader of the four forms
`WriteCompactSize` produces.  Acceptance checks the absent reader may add on
top (canonical form, an upper limit on the size) are not part of the model. -/
def ReadCompactSize (s : List Byte) : Option (uint64_t × List Byte) :=
  match s with
  | [] => none
  | chSize :: rest =>
    if chSize.val < 253 then some (⟨chSize.val, by omega⟩, rest)
    else
      (readBytes (if chSize.val = 253 then 2 else if chSize.val = 254 then 4 else 8) rest).map
        fun p => (⟨leValue p.1 % 18446744073709551616, Nat.mod_lt _ (by decide)⟩, p.2)

/-- Modelled from the spec: the serializer of `std::string` is in serialize.h,
which is not among the sources; a string is written as its length prefix
followed by its bytes. -/
def stringCodec : Codec std_string where
  Serialize str := WriteCompactSize str.val.length ++ str.val
  Unserialize s :=
    (ReadCompactSize s).bind fun p =>
      if h : p.1.val ≤ p.2.length then
        some (⟨p.2.take p.1.val, by rw [List.length_take]; omega⟩, p.2.drop p.1.val)
      else none

/-- Direction of a `SerializationOp` call: `CSerActionSerialize` or
`CSerActionUnserialize`. -/
inductive SerAction where
  | CSerActionSerialize
  | CSerActionUnserialize
  deriving DecidableEq, Repr

/-- What a `SerializationOp` call works on: the stream `s` and the object whose
fields are written or overwritten. -/
structure SerState (R : Type) where
  /-- The stream. -/
  s : List Byte
  /-- The object. -/
  obj : R
  deriving DecidableEq

/-- The `READWRITE(field)` macro: when serializing, the field is appended to
the stream; when unserializing, it is read from the front of the stream and
stored into the object.  A failed read aborts the whole operation. -/
def READWRITE {R α : Type} (c : Codec α) (get : R → α) (set : α → R → R)
    (ser_action : SerAction) (st : SerState R) : Option (SerState R) :=
  match ser_action with
  | SerAction.CSerActionSerialize =>
    some { s := st.s ++ c.Serialize (get st.obj), obj := st.obj }
  | SerAction.CSerActionUnserialize =>
    match c.Unserialize st.s with
    | none => none
    | some (a, rest) => some { s := rest, obj := set a st.obj }

/-- The methods `ADD_SERIALIZE_METHODS` adds to a record with the given
`SerializationOp`: `Serialize` runs it on an empty stream and returns what was
written, `Unserialize` runs it on a default-constructed object. -/
def Codec.ofOp {R : Type} (dflt : R)
    (op : SerAction → SerState R → Option (SerState R)) : Codec R where
  Serialize r :=
    match op SerAction.CSerActionSerialize { s := [], obj := r } with
    | some st => st.s
    | none => []
  Unserialize s :=
    match op SerAction.CSerActionUnserialize { s := s, obj := dflt } with
    | some st => some (st.obj, st.s)
    | none => none

/-! ## Records (sidechain.h, lines 38-225) -/

/-- The empty string. -/
def emptyString : std_string := ⟨[], by decide⟩

/-- The all-zero blob, the value of a default-constructed hash. -/
def zeroBlob (n : Nat) : base_blob n := ⟨List.replicate n 0, List.length_replicate n 0⟩

/-- Record `SidechainProposal` (lines 38-69). -/
structure SidechainProposal where
  /-- Version of the proposal. -/
  nVersion : int32_t := toInt32 SIDECHAIN_VERSION_CURRENT
  /-- Title. -/
  title : std_string
  /-- Description. -/
  description : std_string
  /-- Key identifier. -/
  sidechainKeyID : std_string
  /-- Script template, hex. -/
  sidechainHex : std_string
  /-- Private key. -/
  sidechainPriv : std_string
  /-- First identifying hash. -/
  hashID1 : uint256
  /-- Second identifying hash. -/
  hashID2 : uint160
  deriving DecidableEq

/-- Default-constructed `SidechainProposal`. -/
def SidechainProposal.dflt : SidechainProposal :=
  { title := emptyString, description := emptyString, sidechainKeyID := emptyString,
    sidechainHex := emptyString, sidechainPriv := emptyString,
    hashID1 := zeroBlob 32, hashID2 := zeroBlob 20 }

/-- `SidechainProposal::SerializationOp` (lines 58-68). -/
def SidechainProposal.SerializationOp (ser_action : SerAction)
    (st : SerState SidechainProposal) : Option (SerState SidechainProposal) := do
  let st ← READWRITE int32Codec (fun r => r.nVersion) (fun v r => { r with nVersion := v }) ser_action st
  let st ← READWRITE stringCodec (fun r => r.title) (fun v r => { r with title := v }) ser_action st
  let st ← READWRITE stringCodec (fun r => r.description) (fun v r => { r with description := v }) ser_action st
  let st ← READWRITE stringCodec (fun r => r.sidechainKeyID) (fun v r => { r with sidechainKeyID := v }) ser_action st
  let st ← READWRITE stringCodec (fun r => r.sidechainHex) (fun v r => { r with sidechainHex := v }) ser_action st
  let st ← READWRITE stringCodec (fun r => r.sidechainPriv) (fun v r => { r with sidechainPriv := v }) ser_action st
  let st ← READWRITE uint256Codec (fun r => r.hashID1) (fun v r => { r with hashID1 := v }) ser_action st
  READWRITE uint160Codec (fun r => r.hashID2) (fun v r => { r with hashID2 := v }) ser_action st

/-- Serialize methods of `SidechainProposal`. -/
def SidechainProposal.codec : Codec SidechainProposal :=
  Codec.ofOp SidechainProposal.dflt SidechainProposal.SerializationOp

/-- Record `SidechainActivationStatus` (lines 71-87). -/
structure SidechainActivationStatus where
  /-- Blocks tracked. -/
  nAge : int32_t
  /-- Blocks without a renewed commitment. -/
  nFail : int32_t
  /-- The proposal under consideration. -/
  proposal : SidechainProposal
  deriving DecidableEq

/-- Default-constructed `SidechainActivationStatus`. -/
def SidechainActivationStatus.dflt : SidechainActivationStatus :=
  { nAge := toInt32 0, nFail := toInt32 0, proposal := SidechainProposal.dflt }

/-- `SidechainActivationStatus::SerializationOp` (lines 81-86). -/
def SidechainActivationStatus.SerializationOp (ser_action : SerAction)
    (st : SerState SidechainActivationStatus) : Option (SerState SidechainActivationStatus) := do
  let st ← READWRITE int32Codec (fun r => r.nAge) (fun v r => { r with nAge := v }) ser_action st
  let st ← READWRITE int32Codec (fun r => r.nFail) (fun v r => { r with nFail := v }) ser_action st
  READWRITE SidechainProposal.codec (fun r => r.proposal) (fun v r => { r with proposal := v }) ser_action st

/-- Serialize methods of `SidechainActivationStatus`. -/
def SidechainActivationStatus.codec : Codec SidechainActivationStatus :=
  Codec.ofOp SidechainActivationStatus.dflt SidechainActivationStatus.SerializationOp

/-- Record `Sidechain` (lines 89-120). -/
structure Sidechain where
  /-- Version of the sidechain. -/
  nVersion : int32_t := toInt32 SIDECHAIN_VERSION_CURRENT
  /-- Slot number. -/
  nSidechain : uint8_t
  /-- Key identifier. -/
  sidechainKeyID : std_string
  /-- Private key. -/
  sidechainPriv : std_string
  /-- Script template, hex. -/
  sidechainHex : std_string
  /-- Title. -/
  title : std_string
  /-- Description. -/
  description : std_string
  /-- First identifying hash. -/
  hashID1 : uint256
  /-- Second identifying hash. -/
  hashID2 : uint160
  deriving DecidableEq

/-- Default-constructed `Sidechain`. -/
def Sidechain.dflt : Sidechain :=
  { nSidechain := 0, sidechainKeyID := emptyString, sidechainPriv := emptyString,
    sidechainHex := emptyString, title := emptyString, description := emptyString,
    hashID1 := zeroBlob 32, hashID2 := zeroBlob 20 }

/-- `Sidechain::SerializationOp` (lines 108-119). -/
def Sidechain.SerializationOp (ser_action : SerAction)
    (st : SerState Sidechain) : Option (SerState Sidechain) := do
  let st ← READWRITE int32Codec (fun r => r.nVersion) (fun v r => { r with nVersion := v }) ser_action st
  let st ← READWRITE uint8Codec (fun r => r.nSidechain) (fun v r => { r with nSidechain := v }) ser_action st
  let st ← READWRITE stringCodec (fun r => r.sidechainKeyID) (fun v r => { r with sidechainKeyID := v }) ser_action st
  let st ← READWRITE stringCodec (fun r => r.sidechainPriv) (fun v r => { r with sidechainPriv := v }) ser_action st
  let st ← READWRITE stringCodec (fun r => r.sidechainHex) (fun v r => { r with sidechainHex := v }) ser_action st
  let st ← READWRITE stringCodec (fun r => r.title) (fun v r => { r with title := v }) ser_action st
  let st ← READWRITE stringCodec (fun r => r.description) (fun v r => { r with description := v }) ser_action st
  let st ← READWRITE uint256Codec (fun r => r.hashID1) (fun v r => { r with hashID1 := v }) ser_action st
  READWRITE uint160Codec (fun r => r.hashID2) (fun v r => { r with hashID2 := v }) ser_action st

/-- Serialize methods of `Sidechain`. -/
def Sidechain.codec : Codec Sidechain :=
  Codec.ofOp Sidechain.dflt Sidechain.SerializationOp

/-- Record `SidechainDeposit` (lines 122-143).  `CMutableTransaction` is declared
in primitives/transaction.h, which is not among the sources: the record is
parametric in the transaction type `Tx`. -/
structure SidechainDeposit (Tx : Type) where
  /-- Slot number of the sidechain. -/
  nSidechain : uint8_t
  /-- Recipient key identifier. -/
  keyID : CKeyID
  /-- The deposit transaction. -/
  tx : Tx
  /-- Output index. -/
  n : uint32_t
  /-- Hash of the containing block. -/
  hashBlock : uint256

/-- `SidechainDeposit::SerializationOp` (lines 135-142), for a given serializer
`txCodec` of the transaction type. -/
def SidechainDeposit.SerializationOp {Tx : Type} (txCodec : Codec Tx) (ser_action : SerAction)
    (st : SerState (SidechainDeposit Tx)) : Option (SerState (SidechainDeposit Tx)) := do
  let st ← READWRITE uint8Codec (fun r => r.nSidechain) (fun v r => { r with nSidechain := v }) ser_action st
  let st ← READWRITE uint160Codec (fun r => r.keyID) (fun v r => { r with keyID := v }) ser_action st
  let st ← READWRITE txCodec (fun r => r.tx) (fun v r => { r with tx := v }) ser_action st
  let st ← READWRITE uint32Codec (fun r => r.n) (fun v r => { r with n := v }) ser_action st
  READWRITE uint256Codec (fun r => r.hashBlock) (fun v r => { r with hashBlock := v }) ser_action st

/-- Record `SidechainCustomVote` (lines 151-171). -/
structure SidechainCustomVote where
  /-- The tag: SCDB_UPVOTE, SCDB_DOWNVOTE or SCDB_ABSTAIN. -/
  vote : char
  /-- Slot number of the sidechain. -/
  nSidechain : uint8_t
  /-- Hash of the withdrawal bundle. -/
  hashWTPrime : uint256
  deriving DecidableEq

/-- `SidechainCustomVote::operator==` (lines 157-161). -/
def SidechainCustomVote.operator_eq (a v : SidechainCustomVote) : Bool :=
  (a.vote == v.vote && a.nSidechain == v.nSidechain
    && a.hashWTPrime == v.hashWTPrime)

/-- Default-constructed `SidechainCustomVote`. -/
def SidechainCustomVote.dflt : SidechainCustomVote :=
  { vote := 0, nSidechain := 0, hashWTPrime := zeroBlob 32 }

/-- `SidechainCustomVote::SerializationOp` (lines 165-170). -/
def SidechainCustomVote.SerializationOp (ser_action : SerAction)
    (st : SerState SidechainCustomVote) : Option (SerState SidechainCustomVote) := do
  let st ← READWRITE charCodec (fun r => r.vote) (fun v r => { r with vote := v }) ser_action st
  let st ← READWRITE uint8Codec (fun r => r.nSidechain) (fun v r => { r with nSidechain := v }) ser_action st
  READWRITE uint256Codec (fun r => r.hashWTPrime) (fun v r => { r with hashWTPrime := v }) ser_action st

/-- Serialize methods of `SidechainCustomVote`. -/
def SidechainCustomVote.codec : Codec SidechainCustomVote :=
  Codec.ofOp SidechainCustomVote.dflt SidechainCustomVote.SerializationOp

/-- Record `SidechainWTPrimeState` (lines 173-194). -/
structure SidechainWTPrimeState where
  /-- Slot number of the sidechain. -/
  nSidechain : uint8_t
  /-- Blocks left to gather the work score. -/
  nBlocksLeft : uint16_t
  /-- Work score gathered. -/
  nWorkScore : uint16_t
  /-- Hash of the withdrawal bundle. -/
  hashWTPrime : uint256
  deriving DecidableEq

/-- Default-constructed `SidechainWTPrimeState`. -/
def SidechainWTPrimeState.dflt : SidechainWTPrimeState :=
  { nSidechain := 0, nBlocksLeft := 0, nWorkScore := 0, hashWTPrime := zeroBlob 32 }

/-- `SidechainWTPrimeState::SerializationOp` (lines 187-193). -/
def SidechainWTPrimeState.SerializationOp (ser_action : SerAction)
    (st : SerState SidechainWTPrimeState) : Option (SerState SidechainWTPrimeState) := do
  let st ← READWRITE uint8Codec (fun r => r.nSidechain) (fun v r => { r with nSidechain := v }) ser_action st
  let st ← READWRITE uint16Codec (fun r => r.nBlocksLeft) (fun v r => { r with nBlocksLeft := v }) ser_action st
  let st ← READWRITE uint16Codec (fun r => r.nWorkScore) (fun v r => { r with nWorkScore := v }) ser_action st
  READWRITE uint256Codec (fun r => r.hashWTPrime) (fun v r => { r with hashWTPrime := v }) ser_action st

/-- Serialize methods of `SidechainWTPrimeState`. -/
def SidechainWTPrimeState.codec : Codec SidechainWTPrimeState :=
  Codec.ofOp SidechainWTPrimeState.dflt SidechainWTPrimeState.SerializationOp

/-- Record `SidechainSpentWTPrime` (lines 196-209). -/
structure SidechainSpentWTPrime where
  /-- Slot number of the sidechain. -/
  nSidechain : uint8_t
  /-- Hash of the withdrawal bundle. -/
  hashWTPrime : uint256
  /-- Hash of the block that spent it. -/
  hashBlock : uint256
  deriving DecidableEq

/-- Default-constructed `SidechainSpentWTPrime`. -/
def SidechainSpentWTPrime.dflt : SidechainSpentWTPrime :=
  { nSidechain := 0, hashWTPrime := zeroBlob 32, hashBlock := zeroBlob 32 }

/-- `SidechainSpentWTPrime::SerializationOp` (lines 203-208). -/
def SidechainSpentWTPrime.SerializationOp (ser_action : SerAction)
    (st : SerState SidechainSpentWTPrime) : Option (SerState SidechainSpentWTPrime) := do
  let st ← READWRITE uint8Codec (fun r => r.nSidechain) (fun v r => { r with nSidechain := v }) ser_action st
  let st ← READWRITE uint256Codec (fun r => r.hashWTPrime) (fun v r => { r with hashWTPrime := v }) ser_action st
  READWRITE uint256Codec (fun r => r.hashBlock) (fun v r => { r with hashBlock := v }) ser_action st

/-- Serialize methods of `SidechainSpentWTPrime`. -/
def SidechainSpentWTPrime.codec : Codec SidechainSpentWTPrime :=
  Codec.ofOp SidechainSpentWTPrime.dflt SidechainSpentWTPrime.SerializationOp

/-- Modelled from the spec: `COutPoint` is declared in primitives/transaction.h,
which is not among the sources; the spec describes an outpoint as
"transaction+index": the hash of a transaction and an output index. -/
structure COutPoint where
  /-- Hash of the transaction. -/
  hash : uint256
  /-- Output index. -/
  n : uint32_t
  deriving DecidableEq

/-- Default-constructed `COutPoint`. -/
def COutPoint.dflt : COutPoint := { hash := zeroBlob 32, n := 0 }

/-- Modelled from the spec: the `SerializationOp` of `COutPoint` is in
primitives/transaction.h, which is not among the sources; the transaction hash
is written first, then the index. -/
def COutPoint.SerializationOp (ser_action : SerAction)
    (st : SerState COutPoint) : Option (SerState COutPoint) := do
  let st ← READWRITE uint256Codec (fun r => r.hash) (fun v r => { r with hash := v }) ser_action st
  READWRITE uint32Codec (fun r => r.n) (fun v r => { r with n := v }) ser_action st

/-- Serialize methods of `COutPoint`. -/
def COutPoint.codec : Codec COutPoint :=
  Codec.ofOp COutPoint.dflt COutPoint.SerializationOp

/-- Record `SidechainCTIP` (lines 211-225). -/
structure SidechainCTIP where
  /-- The outpoint. -/
  out : COutPoint
  /-- The amount it holds. -/
  amount : CAmount
  deriving DecidableEq

/-- Default-constructed `SidechainCTIP`. -/
def SidechainCTIP.dflt : SidechainCTIP :=
  { out := COutPoint.dflt, amount := ⟨0, by decide⟩ }

/-- `SidechainCTIP::SerializationOp` (lines 220-224). -/
def SidechainCTIP.SerializationOp (ser_action : SerAction)
    (st : SerState SidechainCTIP) : Option (SerState SidechainCTIP) := do
  let st ← READWRITE COutPoint.codec (fun r => r.out) (fun v r => { r with out := v }) ser_action st
  READWRITE int64Codec (fun r => r.amount) (fun v r => { r with amount := v }) ser_action st

/-- Serialize methods of `SidechainCTIP`. -/
def SidechainCTIP.codec : Codec SidechainCTIP :=
  Codec.ofOp SidechainCTIP.dflt SidechainCTIP.SerializationOp

/-! ## The field order the specification lists for `Sidechain` -/

/-- The attribute sequence of the specification's data-model table for
`Sidechain`, written with the field serializers: slot id, version, key
identifier, the two identifying hashes, then title and description. -/
def Sidechain.specOrderBytes (r : Sidechain) : List Byte :=
  uint8Codec.Serialize r.nSidechain ++ int32Codec.Serialize r.nVersion
    ++ stringCodec.Serialize r.sidechainKeyID
    ++ uint256Codec.Serialize r.hashID1 ++ uint160Codec.Serialize r.hashID2
    ++ stringCodec.Serialize r.title ++ stringCodec.Serialize r.description

/-- A string from explicit bytes. -/
def mkString (l : List Byte) (h : l.length < 18446744073709551616) : std_string := ⟨l, h⟩

/-- A sample sidechain: version 0 in slot 5. -/
def sampleSidechain : Sidechain :=
  { nVersion := toInt32 0, nSidechain := 5,
    sidechainKeyID := mkString [1, 2] (by decide), sidechainPriv := mkString [3] (by decide),
    sidechainHex := mkString [4, 5, 6] (by decide),
    title := mkString [116] (by decide), description := mkString [100, 101] (by decide),
    hashID1 := zeroBlob 32, hashID2 := zeroBlob 20 }

/-- A sample proposal. -/
def sampleProposal : SidechainProposal :=
  { nVersion := toInt32 0, title := mkString [116] (by decide),
    description := mkString [100, 101] (by decide),
    sidechainKeyID := mkString [1, 2] (by decide), sidechainHex := mkString [4, 5, 6] (by decide),
    sidechainPriv := mkString [3] (by decide),
    hashID1 := zeroBlob 32, hashID2 := zeroBlob 20 }

/-- A sample upvote for a bundle of sidechain 3. -/
def sampleUpvote : SidechainCustomVote :=
  { vote := SCDB_UPVOTE, nSidechain := 3, hashWTPrime := zeroBlob 32 }

/-! ## The deposit fee (sidechain.h, line 22)

`0.00001 * COIN` is a product of a `double` literal and a `CAmount` converted
to `double`, converted back to `CAmount`.  The values are modelled exactly: a
finite binary64 number is a sign, a significand and an exponent, and every
operation rounds to the nearest representable value, ties to even. -/

/-- A finite binary64 value `(-1)^neg * m * 2^e`; zero has `m = 0`, any other
value has `2^52 ≤ m < 2^53`. -/
structure Double where
  /-- Sign. -/
  neg : Bool
  /-- Significand, 53 bits. -/
  m : Nat
  /-- Exponent of the last bit of the significand. -/
  e : Int
  deriving DecidableEq, Repr

/-- Nearest integer to `a / b`, ties to the even one. -/
def roundHalfEven (a b : Nat) : Nat :=
  if 2 * (a % b) < b then a / b
  else if b < 2 * (a % b) then a / b + 1
  else if (a / b) % 2 = 0 then a / b else a / b + 1

/-- Position of the leading bit of `n`, by halving at most `fuel` times. -/
def log2Fuel : Nat → Nat → Nat
  | 0, _ => 0
  | fuel + 1, n => if n < 2 then 0 else log2Fuel fuel (n / 2) + 1

/-- Position of the leading bit of `n`: the floor of its binary logarithm. -/
def log2 (n : Nat) : Nat := log2Fuel n n

/-- The binary64 value nearest to the rational `a / b` (ties to even), with the
given sign.  Magnitudes are in the normal range for every use below. -/
def Double.round (neg : Bool) (a b : Nat) : Double :=
  if a = 0 ∨ b = 0 then { neg := neg, m := 0, e := 0 }
  else
    let e0 : Int := (log2 a : Int) - (log2 b : Int) - 52
    let e : Int := if a * 2 ^ (-e0).toNat < 2 ^ 52 * (b * 2 ^ e0.toNat) then e0 - 1 else e0
    let m := roundHalfEven (a * 2 ^ (-e).toNat) (b * 2 ^ e.toNat)
    if m = 2 ^ 53 then { neg := neg, m := 2 ^ 52, e := e + 1 } else { neg := neg, m := m, e := e }

/-- Conversion of an integer to `double`. -/
def Double.ofInt (i : Int) : Double := Double.round (decide (i < 0)) i.natAbs 1

/-- Product of two `double` values. -/
def Double.mul (x y : Double) : Double :=
  Double.round (x.neg != y.neg) (x.m * y.m * 2 ^ (x.e + y.e).toNat) (2 ^ (-(x.e + y.e)).toNat)

/-- Conversion of a `double` to an integer: the fraction is discarded. -/
def Double.toInt (d : Double) : Int :=
  if d.neg then -((d.m * 2 ^ d.e.toNat / 2 ^ (-d.e).toNat : Nat) : Int)
  else ((d.m * 2 ^ d.e.toNat / 2 ^ (-d.e).toNat : Nat) : Int)

/-- Sidechain deposit fee: `0.00001 * COIN`.  `COIN` is declared in amount.h,
which is not among the sources, and is a parameter here. -/
def SIDECHAIN_DEPOSIT_FEE (COIN : Int) : Int :=
  Double.toInt (Double.mul (Double.round false 1 100000) (Double.ofInt COIN))

/-! ## Voting on a withdrawal bundle -/

/-- Modelled from the spec: the creation of a bundle's voting state is not in
sidechain.h; the state is "created with blocks-left =
SIDECHAIN_VERIFICATION_PERIOD, workscore = 0". -/
def SidechainWTPrimeState.create (nSidechain : uint8_t) (hashWTPrime : uint256) :
    SidechainWTPrimeState :=
  { nSidechain := nSidechain, nBlocksLeft := toUInt16 SIDECHAIN_VERIFICATION_PERIOD,
    nWorkScore := 0, hashWTPrime := hashWTPrime }

/-- Modelled from the spec: the per-block update of a bundle's voting state is
not in sidechain.h; "each block: blocks-left decrements by 1", an upvote
increments the work score, a downvote decrements it with a floor of 0, an
abstention leaves it unchanged.  The cap on increments, which the spec leaves
open, is not modelled.  Both counters are `uint16_t` and wrap. -/
def SidechainWTPrimeState.applyBlock (vote : char) (st : SidechainWTPrimeState) :
    SidechainWTPrimeState :=
  { nSidechain := st.nSidechain,
    nBlocksLeft := toUInt16 ((st.nBlocksLeft.val : Int) - 1),
    nWorkScore :=
      if vote = SCDB_UPVOTE then toUInt16 ((st.nWorkScore.val : Int) + 1)
      else if vote = SCDB_DOWNVOTE then
        (if st.nWorkScore.val = 0 then st.nWorkScore else toUInt16 ((st.nWorkScore.val : Int) - 1))
      else st.nWorkScore,
    hashWTPrime := st.hashWTPrime }

/-- Modelled from the spec: a bundle is confirmed "as soon as workscore ≥
SIDECHAIN_MIN_WORKSCORE". -/
def SidechainWTPrimeState.isConfirmed (st : SidechainWTPrimeState) : Bool :=
  decide (SIDECHAIN_MIN_WORKSCORE ≤ (st.nWorkScore.val : Int))

/-- Modelled from the spec: a bundle expires when "blocks-left reaches 0". -/
def SidechainWTPrimeState.isExpired (st : SidechainWTPrimeState) : Bool :=
  decide (st.nBlocksLeft.val = 0)

/-- State of a bundle after `k` consecutive blocks that each carry an upvote. -/
def SidechainWTPrimeState.afterUpvotes : Nat → SidechainWTPrimeState → SidechainWTPrimeState
  | 0, st => st
  | k + 1, st => SidechainWTPrimeState.applyBlock SCDB_UPVOTE (SidechainWTPrimeState.afterUpvotes k st)

/-- State of a bundle after the blocks that carry the given votes, oldest first. -/
def SidechainWTPrimeState.afterVotes :
    List char → SidechainWTPrimeState → SidechainWTPrimeState
  | [], st => st
  | vote :: votes, st =>
    SidechainWTPrimeState.afterVotes votes (SidechainWTPrimeState.applyBlock vote st)

/-! ## Tracking the activation of a proposal -/

/-- Result of `int` arithmetic stored back into an `int`: the value modulo 2^32,
read as a signed number. -/
def wrapInt32 (i : Int) : int32_t := ofBits 2147483648 (by decide) (i % 4294967296).toNat

/-- Modelled from the spec: the creation of an activation status is not in
sidechain.h; "on first observation: create an ActivationStatus with age=0,
fail=0". -/
def SidechainActivationStatus.create (proposal : SidechainProposal) :
    SidechainActivationStatus :=
  { nAge := toInt32 0, nFail := toInt32 0, proposal := proposal }

/-- Modelled from the spec: the per-block update of an activation status is not
in sidechain.h; "age increments by 1 unconditionally. If the block carries a
renewing commitment for this proposal, fail resets to 0; otherwise fail
increments by 1". -/
def SidechainActivationStatus.applyBlock (renewed : Bool) (st : SidechainActivationStatus) :
    SidechainActivationStatus :=
  { nAge := wrapInt32 (st.nAge.val + 1),
    nFail := if renewed then toInt32 0 else wrapInt32 (st.nFail.val + 1),
    proposal := st.proposal }

/-- Modelled from the spec: the discard test is not in sidechain.h; a status is
discarded "when fail > SIDECHAIN_ACTIVATION_MAX_FAILURES or age >
SIDECHAIN_ACTIVATION_MAX_AGE". -/
def SidechainActivationStatus.isDiscarded (st : SidechainActivationStatus) : Bool :=
  decide (SIDECHAIN_ACTIVATION_MAX_FAILURES < st.nFail.val)
    || decide (SIDECHAIN_ACTIVATION_MAX_AGE < st.nAge.val)

/-- Status of a proposal after `k` consecutive blocks that each renew its commitment. -/
def SidechainActivationStatus.afterRenewals :
    Nat → SidechainActivationStatus → SidechainActivationStatus
  | 0, st => st
  | k + 1, st =>
    SidechainActivationStatus.applyBlock true (SidechainActivationStatus.afterRenewals k st)

/-! ## Samples for the encoding of proposals -/

/-- The sample proposal with the first byte of its description moved to the end
of its title. -/
def sampleProposalShifted : SidechainProposal :=
  { nVersion := toInt32 0, title := mkString [116, 100] (by decide),
    description := mkString [101] (by decide),
    sidechainKeyID := mkString [1, 2] (by decide), sidechainHex := mkString [4, 5, 6] (by decide),
    sidechainPriv := mkString [3] (by decide),
    hashID1 := zeroBlob 32, hashID2 := zeroBlob 20 }

/-! ## Properties stated about serializers -/

/-- A serializer pair round-trips: reading from what was written, followed by
any further bytes, gives back the value and leaves exactly those bytes. -/
def Codec.RoundTrip {α : Type} (c : Codec α) : Prop :=
  ∀ (a : α) (rest : List Byte), c.Unserialize (c.Serialize a ++ rest) = some (a, rest)

/-- A `SerializationOp` round-trips: serializing `r` onto an empty stream
succeeds and writes some bytes `w`; unserializing with the same operation from
`w` followed by any bytes `rest`, into any object `r0`, succeeds, leaves the
object equal to `r` and the stream equal to `rest`. -/
def RoundTripOp {R : Type} (op : SerAction → SerState R → Option (SerState R)) : Prop :=
  ∀ (r r0 : R) (rest : List Byte), ∃ w : List Byte,
    op SerAction.CSerActionSerialize { s := [], obj := r } = some { s := w, obj := r } ∧
    op SerAction.CSerActionUnserialize { s := w ++ rest, obj := r0 }
      = some { s := rest, obj := r }

/-! ## Lemmas on the primitive serializers -/

/-- The little-endian form on `n` bytes has `n` bytes. -/
theorem leBytes_length (n v : Nat) : (leBytes n v).length = n := by
  induction n generalizing v with
  | zero => rfl
  | succ k ih => simp [leBytes, ih]

/-- Reading back `n` little-endian bytes gives the value modulo `256 ^ n`. -/
theorem leValue_leBytes (n v : Nat) : leValue (leBytes n v) = v % 256 ^ n := by
  induction n generalizing v with
  | zero => simp [leBytes, leValue, Nat.mod_one]
  | succ k ih =>
    simp only [leBytes, leValue, ih]
    rw [pow_succ, Nat.mul_comm (256 ^ k) 256, Nat.mod_mul]

/-- Reading `n` bytes from a stream that starts with `n` bytes `l` gives `l` and the rest. -/
theorem readBytes_append (n : Nat) (l rest : List Byte) (h : l.length = n) :
    readBytes n (l ++ rest) = some (l, rest) := by
  subst h
  simp [readBytes]

/-- The unsigned serializer round-trips when the type fits the `n` bytes. -/
theorem uintCodec_roundTrip (n m : Nat) (hm : 0 < m) (h : m ≤ 256 ^ n) :
    (uintCodec n m hm).RoundTrip := by
  intro a rest
  have hlt : a.val < 256 ^ n := lt_of_lt_of_le a.isLt h
  simp only [uintCodec, readBytes_append n _ rest (leBytes_length n a.val), Option.map_some',
    leValue_leBytes, Nat.mod_eq_of_lt hlt, Nat.mod_eq_of_lt a.isLt]

/-- The signed reading of the bit pattern of `v` is `v`. -/
theorem ofBits_toNat (half : Nat) (hh : 0 < half) (v : SInt half) :
    ofBits half hh ((v.val % ((2 * half : Nat) : Int)).toNat % (2 * half)) = v := by
  obtain ⟨i, hlo, hhi⟩ := v
  have hpos : (0 : Int) < ((2 * half : Nat) : Int) := by omega
  have h0 : 0 ≤ i % ((2 * half : Nat) : Int) := Int.emod_nonneg _ (by omega)
  have h1 : i % ((2 * half : Nat) : Int) < ((2 * half : Nat) : Int) := Int.emod_lt_of_pos _ hpos
  have hcast : (((i % ((2 * half : Nat) : Int)).toNat : Nat) : Int) = i % ((2 * half : Nat) : Int) :=
    Int.toNat_of_nonneg h0
  have hlt : (i % ((2 * half : Nat) : Int)).toNat < 2 * half := by omega
  apply Subtype.ext
  unfold ofBits
  simp only [Nat.mod_eq_of_lt hlt, Nat.mod_mod]
  by_cases hneg : 0 ≤ i
  · have he : i % ((2 * half : Nat) : Int) = i := Int.emod_eq_of_lt hneg (by omega)
    have : (i % ((2 * half : Nat) : Int)).toNat < half := by omega
    simp only [this, dite_true]
    omega
  · have he : i % ((2 * half : Nat) : Int) = i + ((2 * half : Nat) : Int) := by
      rw [← Int.add_emod_self]
      exact Int.emod_eq_of_lt (by omega) (by omega)
    have : ¬ (i % ((2 * half : Nat) : Int)).toNat < half := by omega
    simp only [this, dite_false]
    omega

/-- The signed serializer round-trips when the type fills the `n` bytes. -/
theorem sintCodec_roundTrip (n half : Nat) (hh : 0 < half) (h : 2 * half = 256 ^ n) :
    (sintCodec n half hh).RoundTrip := by
  intro a rest
  simp only [sintCodec, readBytes_append n _ rest (leBytes_length n _), Option.map_some',
    leValue_leBytes, ← h, ofBits_toNat]

/-- The blob serializer round-trips. -/
theorem blobCodec_roundTrip (n : Nat) : (blobCodec n).RoundTrip := by
  intro a rest
  obtain ⟨l, hl⟩ := a
  subst hl
  simp [blobCodec]

/-- The marker of the two-byte form. -/
theorem val253 : ((253 : Byte) : Nat) = 253 := rfl

/-- The marker of the four-byte form. -/
theorem val254 : ((254 : Byte) : Nat) = 254 := rfl

/-- The marker of the eight-byte form. -/
theorem val255 : ((255 : Byte) : Nat) = 255 := rfl

/-- A compact size below 2^64 is read back from what was written for it. -/
theorem ReadCompactSize_Write (n : Nat) (hn : n < 18446744073709551616) (rest : List Byte) :
    ReadCompactSize (WriteCompactSize n ++ rest) = some (⟨n, hn⟩, rest) := by
  unfold WriteCompactSize
  split_ifs with h1 h2 h3
  · simp only [leBytes, List.cons_append, List.nil_append, ReadCompactSize]
    have : n % 256 = n := Nat.mod_eq_of_lt (by omega)
    simp [this, h1]
  · have hv : leValue (leBytes 2 n) = n := by
      rw [leValue_leBytes]; exact Nat.mod_eq_of_lt (by omega)
    rw [List.cons_append, ReadCompactSize]
    simp [val253, readBytes_append 2 _ rest (leBytes_length 2 n), hv, Nat.mod_eq_of_lt hn]
  · have hv : leValue (leBytes 4 n) = n := by
      rw [leValue_leBytes]; exact Nat.mod_eq_of_lt (by omega)
    rw [List.cons_append, ReadCompactSize]
    simp [val254, readBytes_append 4 _ rest (leBytes_length 4 n), hv, Nat.mod_eq_of_lt hn]
  · have hv : leValue (leBytes 8 n) = n := by
      rw [leValue_leBytes]; exact Nat.mod_eq_of_lt (by omega)
    rw [List.cons_append, ReadCompactSize]
    simp [val255, readBytes_append 8 _ rest (leBytes_length 8 n), hv, Nat.mod_eq_of_lt hn]

/-- The string serializer round-trips. -/
theorem stringCodec_roundTrip : stringCodec.RoundTrip := by
  intro a rest
  obtain ⟨l, hl⟩ := a
  simp [stringCodec, List.append_assoc, ReadCompactSize_Write l.length hl]

/-- When serializing, `READWRITE` appends the field and leaves the object. -/
theorem READWRITE_ser {R α : Type} (c : Codec α) (get : R → α) (set : α → R → R)
    (st : SerState R) :
    READWRITE c get set SerAction.CSerActionSerialize st
      = some { s := st.s ++ c.Serialize (get st.obj), obj := st.obj } := rfl

/-- When unserializing from the bytes of a value, `READWRITE` stores that value
into the object and leaves the rest of the stream. -/
theorem READWRITE_unser {R α : Type} (c : Codec α) (hc : c.RoundTrip) (get : R → α)
    (set : α → R → R) (a : α) (rest : List Byte) (r0 : R) :
    READWRITE c get set SerAction.CSerActionUnserialize { s := c.Serialize a ++ rest, obj := r0 }
      = some { s := rest, obj := set a r0 } := by
  simp only [READWRITE, hc a rest]

/-- Round trip of `uint8_t`. -/
theorem uint8Codec_roundTrip : uint8Codec.RoundTrip := uintCodec_roundTrip 1 256 _ (by decide)

/-- Round trip of `char`. -/
theorem charCodec_roundTrip : charCodec.RoundTrip := uintCodec_roundTrip 1 256 _ (by decide)

/-- Round trip of `uint16_t`. -/
theorem uint16Codec_roundTrip : uint16Codec.RoundTrip := uintCodec_roundTrip 2 65536 _ (by decide)

/-- Round trip of `uint32_t`. -/
theorem uint32Codec_roundTrip : uint32Codec.RoundTrip :=
  uintCodec_roundTrip 4 4294967296 _ (by decide)

/-- Round trip of `int32_t`. -/
theorem int32Codec_roundTrip : int32Codec.RoundTrip :=
  sintCodec_roundTrip 4 2147483648 _ (by decide)

/-- Round trip of `int64_t`. -/
theorem int64Codec_roundTrip : int64Codec.RoundTrip :=
  sintCodec_roundTrip 8 9223372036854775808 _ (by decide)

/-- Round trip of `uint256`. -/
theorem uint256Codec_roundTrip : uint256Codec.RoundTrip := blobCodec_roundTrip 32

/-- Round trip of `uint160`. -/
theorem uint160Codec_roundTrip : uint160Codec.RoundTrip := blobCodec_roundTrip 20

/-- What `Codec.ofOp` gives for an operation that writes `enc r` and reads it back. -/
theorem ofOp_Serialize {R : Type} (dflt : R) (op : SerAction → SerState R → Option (SerState R))
    (enc : R → List Byte)
    (hser : ∀ (s : List Byte) (r : R),
      op SerAction.CSerActionSerialize { s := s, obj := r } = some { s := s ++ enc r, obj := r })
    (r : R) : (Codec.ofOp dflt op).Serialize r = enc r := by
  simp [Codec.ofOp, hser]

/-- The serialize methods of a record round-trip when its operation writes `enc r`
and reads it back. -/
theorem ofOp_roundTrip {R : Type} (dflt : R) (op : SerAction → SerState R → Option (SerState R))
    (enc : R → List Byte)
    (hser : ∀ (s : List Byte) (r : R),
      op SerAction.CSerActionSerialize { s := s, obj := r } = some { s := s ++ enc r, obj := r })
    (hunser : ∀ (r r0 : R) (rest : List Byte),
      op SerAction.CSerActionUnserialize { s := enc r ++ rest, obj := r0 }
        = some { s := rest, obj := r }) :
    (Codec.ofOp dflt op).RoundTrip := by
  intro a rest
  rw [ofOp_Serialize dflt op enc hser]
  simp [Codec.ofOp, hunser]

/-- An operation that writes `enc r` and reads it back round-trips. -/
theorem roundTripOp_of {R : Type} (op : SerAction → SerState R → Option (SerState R))
    (enc : R → List Byte)
    (hser : ∀ (s : List Byte) (r : R),
      op SerAction.CSerActionSerialize { s := s, obj := r } = some { s := s ++ enc r, obj := r })
    (hunser : ∀ (r r0 : R) (rest : List Byte),
      op SerAction.CSerActionUnserialize { s := enc r ++ rest, obj := r0 }
        = some { s := rest, obj := r }) :
    RoundTripOp op := by
  intro r r0 rest
  exact ⟨enc r, by simpa using hser [] r, hunser r r0 rest⟩

/-! ## Lemmas on the records -/

/-- Serializing a `SidechainProposal` appends its fields in the order of its `SerializationOp`. -/
theorem SidechainProposal_ser_eq (s : List Byte) (r : SidechainProposal) :
    SidechainProposal.SerializationOp SerAction.CSerActionSerialize { s := s, obj := r }
      = some { s := s ++
        (int32Codec.Serialize r.nVersion ++ stringCodec.Serialize r.title
          ++ stringCodec.Serialize r.description ++ stringCodec.Serialize r.sidechainKeyID
          ++ stringCodec.Serialize r.sidechainHex ++ stringCodec.Serialize r.sidechainPriv
          ++ uint256Codec.Serialize r.hashID1
          ++ uint160Codec.Serialize r.hashID2), obj := r } := by
  simp [SidechainProposal.SerializationOp, READWRITE_ser, List.append_assoc]

/-- Unserializing from the bytes of a `SidechainProposal` restores every field and leaves the rest. -/
theorem SidechainProposal_unser_eq (r r0 : SidechainProposal) (rest : List Byte) :
    SidechainProposal.SerializationOp SerAction.CSerActionUnserialize
      { obj := r0, s :=
        (int32Codec.Serialize r.nVersion ++ stringCodec.Serialize r.title
          ++ stringCodec.Serialize r.description ++ stringCodec.Serialize r.sidechainKeyID
          ++ stringCodec.Serialize r.sidechainHex ++ stringCodec.Serialize r.sidechainPriv
          ++ uint256Codec.Serialize r.hashID1 ++ uint160Codec.Serialize r.hashID2) ++ rest }
      = some { s := rest, obj := r } := by
  simp [SidechainProposal.SerializationOp, List.append_assoc,
    READWRITE_unser _ int32Codec_roundTrip,
    READWRITE_unser _ stringCodec_roundTrip,
    READWRITE_unser _ uint256Codec_roundTrip,
    READWRITE_unser _ uint160Codec_roundTrip]

/-- The serialize methods of `SidechainProposal` round-trip. -/
theorem SidechainProposal_codec_roundTrip : SidechainProposal.codec.RoundTrip :=
  ofOp_roundTrip _ _ _ SidechainProposal_ser_eq SidechainProposal_unser_eq

/-- Serializing a `SidechainActivationStatus` appends its fields in the order of its `SerializationOp`. -/
theorem SidechainActivationStatus_ser_eq (s : List Byte) (r : SidechainActivationStatus) :
    SidechainActivationStatus.SerializationOp SerAction.CSerActionSerialize { s := s, obj := r }
      = some { s := s ++
        (int32Codec.Serialize r.nAge ++ int32Codec.Serialize r.nFail
          ++ SidechainProposal.codec.Serialize r.proposal), obj := r } := by
  simp [SidechainActivationStatus.SerializationOp, READWRITE_ser, List.append_assoc]

/-- Unserializing from the bytes of a `SidechainActivationStatus` restores every field and leaves the rest. -/
theorem SidechainActivationStatus_unser_eq (r r0 : SidechainActivationStatus) (rest : List Byte) :
    SidechainActivationStatus.SerializationOp SerAction.CSerActionUnserialize
      { obj := r0, s :=
        (int32Codec.Serialize r.nAge ++ int32Codec.Serialize r.nFail
          ++ SidechainProposal.codec.Serialize r.proposal) ++ rest }
      = some { s := rest, obj := r } := by
  simp [SidechainActivationStatus.SerializationOp, List.append_assoc,
    READWRITE_unser _ int32Codec_roundTrip,
    READWRITE_unser _ SidechainProposal_codec_roundTrip]

/-- The serialize methods of `SidechainActivationStatus` round-trip. -/
theorem SidechainActivationStatus_codec_roundTrip : SidechainActivationStatus.codec.RoundTrip :=
  ofOp_roundTrip _ _ _ SidechainActivationStatus_ser_eq SidechainActivationStatus_unser_eq

/-- Serializing a `Sidechain` appends its fields in the order of its `SerializationOp`. -/
theorem Sidechain_ser_eq (s : List Byte) (r : Sidechain) :
    Sidechain.SerializationOp SerAction.CSerActionSerialize { s := s, obj := r }
      = some { s := s ++
        (int32Codec.Serialize r.nVersion ++ uint8Codec.Serialize r.nSidechain
          ++ stringCodec.Serialize r.sidechainKeyID ++ stringCodec.Serialize r.sidechainPriv
          ++ stringCodec.Serialize r.sidechainHex ++ stringCodec.Serialize r.title
          ++ stringCodec.Serialize r.description ++ uint256Codec.Serialize r.hashID1
          ++ uint160Codec.Serialize r.hashID2), obj := r } := by
  simp [Sidechain.SerializationOp, READWRITE_ser, List.append_assoc]

/-- Unserializing from the bytes of a `Sidechain` restores every field and leaves the rest. -/
theorem Sidechain_unser_eq (r r0 : Sidechain) (rest : List Byte) :
    Sidechain.SerializationOp SerAction.CSerActionUnserialize
      { obj := r0, s :=
        (int32Codec.Serialize r.nVersion ++ uint8Codec.Serialize r.nSidechain
          ++ stringCodec.Serialize r.sidechainKeyID ++ stringCodec.Serialize r.sidechainPriv
          ++ stringCodec.Serialize r.sidechainHex ++ stringCodec.Serialize r.title
          ++ stringCodec.Serialize r.description ++ uint256Codec.Serialize r.hashID1
          ++ uint160Codec.Serialize r.hashID2) ++ rest }
      = some { s := rest, obj := r } := by
  simp [Sidechain.SerializationOp, List.append_assoc,
    READWRITE_unser _ int32Codec_roundTrip,
    READWRITE_unser _ uint8Codec_roundTrip,
    READWRITE_unser _ stringCodec_roundTrip,
    READWRITE_unser _ uint256Codec_roundTrip,
    READWRITE_unser _ uint160Codec_roundTrip]

/-- The serialize methods of `Sidechain` round-trip. -/
theorem Sidechain_codec_roundTrip : Sidechain.codec.RoundTrip :=
  ofOp_roundTrip _ _ _ Sidechain_ser_eq Sidechain_unser_eq

/-- Serializing a `SidechainCustomVote` appends its fields in the order of its `SerializationOp`. -/
theorem SidechainCustomVote_ser_eq (s : List Byte) (r : SidechainCustomVote) :
    SidechainCustomVote.SerializationOp SerAction.CSerActionSerialize { s := s, obj := r }
      = some { s := s ++
        (charCodec.Serialize r.vote ++ uint8Codec.Serialize r.nSidechain
          ++ uint256Codec.Serialize r.hashWTPrime), obj := r } := by
  simp [SidechainCustomVote.SerializationOp, READWRITE_ser, List.append_assoc]

/-- Unserializing from the bytes of a `SidechainCustomVote` restores every field and leaves the rest. -/
theorem SidechainCustomVote_unser_eq (r r0 : SidechainCustomVote) (rest : List Byte) :
    SidechainCustomVote.SerializationOp SerAction.CSerActionUnserialize
      { obj := r0, s :=
        (charCodec.Serialize r.vote ++ uint8Codec.Serialize r.nSidechain
          ++ uint256Codec.Serialize r.hashWTPrime) ++ rest }
      = some { s := rest, obj := r } := by
  simp [SidechainCustomVote.SerializationOp, List.append_assoc,
    READWRITE_unser _ charCodec_roundTrip,
    READWRITE_unser _ uint8Codec_roundTrip,
    READWRITE_unser _ uint256Codec_roundTrip]

/-- The serialize methods of `SidechainCustomVote` round-trip. -/
theorem SidechainCustomVote_codec_roundTrip : SidechainCustomVote.codec.RoundTrip :=
  ofOp_roundTrip _ _ _ SidechainCustomVote_ser_eq SidechainCustomVote_unser_eq

/-- Serializing a `SidechainWTPrimeState` appends its fields in the order of its `SerializationOp`. -/
theorem SidechainWTPrimeState_ser_eq (s : List Byte) (r : SidechainWTPrimeState) :
    SidechainWTPrimeState.SerializationOp SerAction.CSerActionSerialize { s := s, obj := r }
      = some { s := s ++
        (uint8Codec.Serialize r.nSidechain ++ uint16Codec.Serialize r.nBlocksLeft
          ++ uint16Codec.Serialize r.nWorkScore
          ++ uint256Codec.Serialize r.hashWTPrime), obj := r } := by
  simp [SidechainWTPrimeState.SerializationOp, READWRITE_ser, List.append_assoc]

/-- Unserializing from the bytes of a `SidechainWTPrimeState` restores every field and leaves the rest. -/
theorem SidechainWTPrimeState_unser_eq (r r0 : SidechainWTPrimeState) (rest : List Byte) :
    SidechainWTPrimeState.SerializationOp SerAction.CSerActionUnserialize
      { obj := r0, s :=
        (uint8Codec.Serialize r.nSidechain ++ uint16Codec.Serialize r.nBlocksLeft
          ++ uint16Codec.Serialize r.nWorkScore
          ++ uint256Codec.Serialize r.hashWTPrime) ++ rest }
      = some { s := rest, obj := r } := by
  simp [SidechainWTPrimeState.SerializationOp, List.append_assoc,
    READWRITE_unser _ uint8Codec_roundTrip,
    READWRITE_unser _ uint16Codec_roundTrip,
    READWRITE_unser _ uint256Codec_roundTrip]

/-- The serialize methods of `SidechainWTPrimeState` round-trip. -/
theorem SidechainWTPrimeState_codec_roundTrip : SidechainWTPrimeState.codec.RoundTrip :=
  ofOp_roundTrip _ _ _ SidechainWTPrimeState_ser_eq SidechainWTPrimeState_unser_eq

/-- Serializing a `SidechainSpentWTPrime` appends its fields in the order of its `SerializationOp`. -/
theorem SidechainSpentWTPrime_ser_eq (s : List Byte) (r : SidechainSpentWTPrime) :
    SidechainSpentWTPrime.SerializationOp SerAction.CSerActionSerialize { s := s, obj := r }
      = some { s := s ++
        (uint8Codec.Serialize r.nSidechain ++ uint256Codec.Serialize r.hashWTPrime
          ++ uint256Codec.Serialize r.hashBlock), obj := r } := by
  simp [SidechainSpentWTPrime.SerializationOp, READWRITE_ser, List.append_assoc]

/-- Unserializing from the bytes of a `SidechainSpentWTPrime` restores every field and leaves the rest. -/
theorem SidechainSpentWTPrime_unser_eq (r r0 : SidechainSpentWTPrime) (rest : List Byte) :
    SidechainSpentWTPrime.SerializationOp SerAction.CSerActionUnserialize
      { obj := r0, s :=
        (uint8Codec.Serialize r.nSidechain ++ uint256Codec.Serialize r.hashWTPrime
          ++ uint256Codec.Serialize r.hashBlock) ++ rest }
      = some { s := rest, obj := r } := by
  simp [SidechainSpentWTPrime.SerializationOp, List.append_assoc,
    READWRITE_unser _ uint8Codec_roundTrip,
    READWRITE_unser _ uint256Codec_roundTrip]

/-- The serialize methods of `SidechainSpentWTPrime` round-trip. -/
theorem SidechainSpentWTPrime_codec_roundTrip : SidechainSpentWTPrime.codec.RoundTrip :=
  ofOp_roundTrip _ _ _ SidechainSpentWTPrime_ser_eq SidechainSpentWTPrime_unser_eq

/-- Serializing a `COutPoint` appends its fields in the order of its `SerializationOp`. -/
theorem COutPoint_ser_eq (s : List Byte) (r : COutPoint) :
    COutPoint.SerializationOp SerAction.CSerActionSerialize { s := s, obj := r }
      = some { s := s ++
        (uint256Codec.Serialize r.hash ++ uint32Codec.Serialize r.n), obj := r } := by
  simp [COutPoint.SerializationOp, READWRITE_ser, List.append_assoc]

/-- Unserializing from the bytes of a `COutPoint` restores every field and leaves the rest. -/
theorem COutPoint_unser_eq (r r0 : COutPoint) (rest : List Byte) :
    COutPoint.SerializationOp SerAction.CSerActionUnserialize
      { obj := r0, s :=
        (uint256Codec.Serialize r.hash ++ uint32Codec.Serialize r.n) ++ rest }
      = some { s := rest, obj := r } := by
  simp [COutPoint.SerializationOp, List.append_assoc,
    READWRITE_unser _ uint256Codec_roundTrip,
    READWRITE_unser _ uint32Codec_roundTrip]

/-- The serialize methods of `COutPoint` round-trip. -/
theorem COutPoint_codec_roundTrip : COutPoint.codec.RoundTrip :=
  ofOp_roundTrip _ _ _ COutPoint_ser_eq COutPoint_unser_eq

/-- Serializing a `SidechainCTIP` appends its fields in the order of its `SerializationOp`. -/
theorem SidechainCTIP_ser_eq (s : List Byte) (r : SidechainCTIP) :
    SidechainCTIP.SerializationOp SerAction.CSerActionSerialize { s := s, obj := r }
      = some { s := s ++
        (COutPoint.codec.Serialize r.out ++ int64Codec.Serialize r.amount), obj := r } := by
  simp [SidechainCTIP.SerializationOp, READWRITE_ser, List.append_assoc]

/-- Unserializing from the bytes of a `SidechainCTIP` restores every field and leaves the rest. -/
theorem SidechainCTIP_unser_eq (r r0 : SidechainCTIP) (rest : List Byte) :
    SidechainCTIP.SerializationOp SerAction.CSerActionUnserialize
      { obj := r0, s :=
        (COutPoint.codec.Serialize r.out ++ int64Codec.Serialize r.amount) ++ rest }
      = some { s := rest, obj := r } := by
  simp [SidechainCTIP.SerializationOp, List.append_assoc,
    READWRITE_unser _ COutPoint_codec_roundTrip,
    READWRITE_unser _ int64Codec_roundTrip]

/-- The serialize methods of `SidechainCTIP` round-trip. -/
theorem SidechainCTIP_codec_roundTrip : SidechainCTIP.codec.RoundTrip :=
  ofOp_roundTrip _ _ _ SidechainCTIP_ser_eq SidechainCTIP_unser_eq

/-- Serializing a `SidechainDeposit` appends its fields in the order of its `SerializationOp`. -/
theorem SidechainDeposit_ser_eq {Tx : Type} (txCodec : Codec Tx) (s : List Byte)
    (r : SidechainDeposit Tx) :
    SidechainDeposit.SerializationOp txCodec SerAction.CSerActionSerialize { s := s, obj := r }
      = some { s := s ++
        (uint8Codec.Serialize r.nSidechain ++ uint160Codec.Serialize r.keyID
          ++ txCodec.Serialize r.tx ++ uint32Codec.Serialize r.n
          ++ uint256Codec.Serialize r.hashBlock), obj := r } := by
  simp [SidechainDeposit.SerializationOp, READWRITE_ser, List.append_assoc]

/-! ## Lemmas on the fee and on voting -/

/-- A single byte is its own one-byte little-endian form. -/
theorem leBytes_one (v : Fin 256) : leBytes 1 v.val = [v] := by
  simp [leBytes, Nat.mod_eq_of_lt v.isLt]

set_option maxRecDepth 100000 in
/-- The fee evaluated at the value of COIN. -/
theorem deposit_fee_eval : SIDECHAIN_DEPOSIT_FEE 100000000 = 1000 := by
  decide

set_option maxRecDepth 100000 in
/-- The `double` product behind the fee is not a whole number: it is
`8796093022208001 * 2^-43`, one unit in the last place above 1000. -/
theorem deposit_fee_product :
    Double.mul (Double.round false 1 100000) (Double.ofInt 100000000)
      = { neg := false, m := 8796093022208001, e := -43 } := by
  decide

/-- Counters after `k` upvoted blocks, while the verification period lasts. -/
theorem afterUpvotes_counters (nSidechain : uint8_t) (hashWTPrime : uint256) (k : Nat)
    (hk : k ≤ 32) :
    (SidechainWTPrimeState.afterUpvotes k
        (SidechainWTPrimeState.create nSidechain hashWTPrime)).nWorkScore.val = k
    ∧ (SidechainWTPrimeState.afterUpvotes k
        (SidechainWTPrimeState.create nSidechain hashWTPrime)).nBlocksLeft.val = 32 - k := by
  induction k with
  | zero => exact ⟨rfl, rfl⟩
  | succ j ih =>
    obtain ⟨h1, h2⟩ := ih (by omega)
    simp only [SidechainWTPrimeState.afterUpvotes, SidechainWTPrimeState.applyBlock, if_true,
      toUInt16, h1, h2]
    constructor <;> omega

/-! ## Lemmas on activation, on the counters and on encoded lengths -/

/-- Storing a value that fits `int` keeps it. -/
theorem wrapInt32_val (i : Int) (hlo : -2147483648 ≤ i) (hhi : i < 2147483648) :
    (wrapInt32 i).val = i := by
  unfold wrapInt32 ofBits
  split <;> simp only <;> omega

/-- Counters after `k` renewed blocks, while the age fits `int`. -/
theorem afterRenewals_counters (proposal : SidechainProposal) (k : Nat) (hk : k < 2147483648) :
    (SidechainActivationStatus.afterRenewals k
        (SidechainActivationStatus.create proposal)).nAge.val = k
    ∧ (SidechainActivationStatus.afterRenewals k
        (SidechainActivationStatus.create proposal)).nFail.val = 0 := by
  induction k with
  | zero => exact ⟨rfl, rfl⟩
  | succ j ih =>
    obtain ⟨h1, _⟩ := ih (by omega)
    simp only [SidechainActivationStatus.afterRenewals, SidechainActivationStatus.applyBlock,
      if_true, h1]
    refine ⟨?_, rfl⟩
    rw [wrapInt32_val _ (by omega) (by omega)]
    push_cast
    rfl

/-- One block takes one from a positive blocks-left counter, whatever the vote. -/
theorem applyBlock_nBlocksLeft (vote : char) (st : SidechainWTPrimeState)
    (h : 0 < st.nBlocksLeft.val) :
    ((SidechainWTPrimeState.applyBlock vote st).nBlocksLeft.val : Int)
      = (st.nBlocksLeft.val : Int) - 1 := by
  have := st.nBlocksLeft.isLt
  simp only [SidechainWTPrimeState.applyBlock, toUInt16]
  omega

/-- Blocks left after the blocks of `votes`, when that many blocks were left. -/
theorem afterVotes_nBlocksLeft (votes : List char) (st : SidechainWTPrimeState)
    (h : votes.length ≤ st.nBlocksLeft.val) :
    (SidechainWTPrimeState.afterVotes votes st).nBlocksLeft.val
      = st.nBlocksLeft.val - votes.length := by
  induction votes generalizing st with
  | nil => simp [SidechainWTPrimeState.afterVotes]
  | cons v vs ih =>
    simp only [List.length_cons] at h
    have h1 := applyBlock_nBlocksLeft v st (by omega)
    simp only [SidechainWTPrimeState.afterVotes, List.length_cons]
    rw [ih _ (by omega)]
    omega

/-- The unsigned serializer writes `n` bytes. -/
theorem uintCodec_length (n m : Nat) (hm : 0 < m) (v : Fin m) :
    ((uintCodec n m hm).Serialize v).length = n := leBytes_length n v.val

/-- The signed serializer writes `n` bytes. -/
theorem sintCodec_length (n half : Nat) (hh : 0 < half) (v : SInt half) :
    ((sintCodec n half hh).Serialize v).length = n := leBytes_length n _

/-- The blob serializer writes the `n` bytes of the blob. -/
theorem blobCodec_length (n : Nat) (v : base_blob n) :
    ((blobCodec n).Serialize v).length = n := v.property

/-- An outpoint is written on 36 bytes. -/
theorem COutPoint_length (r : COutPoint) : (COutPoint.codec.Serialize r).length = 36 := by
  have h := ofOp_Serialize COutPoint.dflt COutPoint.SerializationOp _ COutPoint_ser_eq r
  simp only [COutPoint.codec, h, List.length_append, uint256Codec, uint32Codec, blobCodec_length,
    uintCodec_length]

/-- The bytes of a proposal determine the proposal. -/
theorem SidechainProposal_enc_injective (p q : SidechainProposal)
    (h : (SidechainProposal.SerializationOp SerAction.CSerActionSerialize
            { s := [], obj := p }).map (fun st => st.s)
       = (SidechainProposal.SerializationOp SerAction.CSerActionSerialize
            { s := [], obj := q }).map (fun st => st.s)) : p = q := by
  rw [SidechainProposal_ser_eq [] p, SidechainProposal_ser_eq [] q] at h
  simp only [Option.map_some', List.nil_append, Option.some.injEq] at h
  have hp := SidechainProposal_unser_eq p p []
  have hq := SidechainProposal_unser_eq q p []
  rw [h, hq] at hp
  simp only [Option.some.injEq, SerState.mk.injEq, true_and] at hp
  exact hp.symm

/-! ## The claims -/

/-- C1: for each record type that declares a `SerializationOp` (SidechainProposal,
SidechainActivationStatus, Sidechain, SidechainCustomVote, SidechainWTPrimeState,
SidechainSpentWTPrime, SidechainCTIP), serializing a record `r` succeeds, and
unserializing with the same operation from the bytes written, followed by any
further bytes and into any object, yields an object equal to `r` and leaves
exactly the further bytes on the stream. -/
theorem C1_serialization_round_trip :
    RoundTripOp SidechainProposal.SerializationOp
    ∧ RoundTripOp SidechainActivationStatus.SerializationOp
    ∧ RoundTripOp Sidechain.SerializationOp
    ∧ RoundTripOp SidechainCustomVote.SerializationOp
    ∧ RoundTripOp SidechainWTPrimeState.SerializationOp
    ∧ RoundTripOp SidechainSpentWTPrime.SerializationOp
    ∧ RoundTripOp SidechainCTIP.SerializationOp :=
  ⟨roundTripOp_of _ _ SidechainProposal_ser_eq SidechainProposal_unser_eq,
   roundTripOp_of _ _ SidechainActivationStatus_ser_eq SidechainActivationStatus_unser_eq,
   roundTripOp_of _ _ Sidechain_ser_eq Sidechain_unser_eq,
   roundTripOp_of _ _ SidechainCustomVote_ser_eq SidechainCustomVote_unser_eq,
   roundTripOp_of _ _ SidechainWTPrimeState_ser_eq SidechainWTPrimeState_unser_eq,
   roundTripOp_of _ _ SidechainSpentWTPrime_ser_eq SidechainSpentWTPrime_unser_eq,
   roundTripOp_of _ _ SidechainCTIP_ser_eq SidechainCTIP_unser_eq⟩

/-- C2: `SidechainCustomVote::operator==` returns true exactly when the two
votes agree on `vote`, `nSidechain` and `hashWTPrime`, that is exactly when
they are the same value; it is reflexive, symmetric and transitive. -/
theorem C2_custom_vote_equality (a b : SidechainCustomVote) :
    (SidechainCustomVote.operator_eq a b = true ↔
      (a.vote = b.vote ∧ a.nSidechain = b.nSidechain ∧ a.hashWTPrime = b.hashWTPrime))
    ∧ (SidechainCustomVote.operator_eq a b = true ↔ a = b)
    ∧ SidechainCustomVote.operator_eq a a = true
    ∧ SidechainCustomVote.operator_eq a b = SidechainCustomVote.operator_eq b a
    ∧ (∀ c : SidechainCustomVote, SidechainCustomVote.operator_eq a b = true →
        SidechainCustomVote.operator_eq b c = true → SidechainCustomVote.operator_eq a c = true) := by
  have key : ∀ x y : SidechainCustomVote, SidechainCustomVote.operator_eq x y = true ↔
      (x.vote = y.vote ∧ x.nSidechain = y.nSidechain ∧ x.hashWTPrime = y.hashWTPrime) := by
    intro x y
    simp [SidechainCustomVote.operator_eq, and_assoc]
  have key2 : ∀ x y : SidechainCustomVote, SidechainCustomVote.operator_eq x y = true ↔ x = y := by
    intro x y
    rw [key]
    constructor
    · intro h
      cases x; cases y
      simp_all
    · intro h
      subst h
      exact ⟨rfl, rfl, rfl⟩
  refine ⟨key a b, key2 a b, (key2 a a).2 rfl, ?_, ?_⟩
  · rw [Bool.eq_iff_iff, key2, key2]
    exact eq_comm
  · intro c h1 h2
    rw [key2] at *
    exact h1.trans h2

/-- C2 at three equal upvotes: the two comparisons hold, hence the third. -/
theorem C2_custom_vote_equality_witness :
    SidechainCustomVote.operator_eq sampleUpvote sampleUpvote = true :=
  (C2_custom_vote_equality sampleUpvote sampleUpvote).2.2.2.2 sampleUpvote
    (by decide) (by decide)

/-- C3 (as stated, refuted): the sample sidechain (version 0, slot 5) is not
serialized in the order slot id, version, key identifier, hashes, title,
description: the bytes written start with the four bytes of the version, the
slot id is the fifth byte. -/
theorem C3_spec_order_counterexample :
    Sidechain.SerializationOp SerAction.CSerActionSerialize { s := [], obj := sampleSidechain }
      ≠ some { s := Sidechain.specOrderBytes sampleSidechain, obj := sampleSidechain }
    ∧ (Sidechain.codec.Serialize sampleSidechain).take 5 = [0, 0, 0, 0, 5]
    ∧ (Sidechain.specOrderBytes sampleSidechain).take 5 = [5, 0, 0, 0, 0] := by
  decide

/-- C3 (amended): `Sidechain::SerializationOp` writes, in this order, nVersion,
nSidechain, sidechainKeyID, sidechainPriv, sidechainHex, title, description,
hashID1, hashID2, and nothing else. -/
theorem C3_sidechain_field_order (r : Sidechain) :
    Sidechain.SerializationOp SerAction.CSerActionSerialize { s := [], obj := r }
      = some { s := int32Codec.Serialize r.nVersion ++ uint8Codec.Serialize r.nSidechain
          ++ stringCodec.Serialize r.sidechainKeyID ++ stringCodec.Serialize r.sidechainPriv
          ++ stringCodec.Serialize r.sidechainHex ++ stringCodec.Serialize r.title
          ++ stringCodec.Serialize r.description ++ uint256Codec.Serialize r.hashID1
          ++ uint160Codec.Serialize r.hashID2, obj := r } := by
  simpa using Sidechain_ser_eq [] r

/-- C4: the fields written by the `SerializationOp` of each record are, in
order and with none added or left out: ActivationStatus = nAge, nFail, proposal;
Deposit = nSidechain, keyID, tx, n, hashBlock; CustomVote = vote, nSidechain,
hashWTPrime; WTPrimeState = nSidechain, nBlocksLeft, nWorkScore, hashWTPrime;
SpentWTPrime = nSidechain, hashWTPrime, hashBlock; CTIP = out, amount. -/
theorem C4_record_field_order :
    (∀ r : SidechainActivationStatus,
      SidechainActivationStatus.SerializationOp SerAction.CSerActionSerialize { s := [], obj := r }
        = some { s := int32Codec.Serialize r.nAge ++ int32Codec.Serialize r.nFail
            ++ SidechainProposal.codec.Serialize r.proposal, obj := r })
    ∧ (∀ (Tx : Type) (txCodec : Codec Tx) (r : SidechainDeposit Tx),
      SidechainDeposit.SerializationOp txCodec SerAction.CSerActionSerialize { s := [], obj := r }
        = some { s := uint8Codec.Serialize r.nSidechain ++ uint160Codec.Serialize r.keyID
            ++ txCodec.Serialize r.tx ++ uint32Codec.Serialize r.n
            ++ uint256Codec.Serialize r.hashBlock, obj := r })
    ∧ (∀ r : SidechainCustomVote,
      SidechainCustomVote.SerializationOp SerAction.CSerActionSerialize { s := [], obj := r }
        = some { s := charCodec.Serialize r.vote ++ uint8Codec.Serialize r.nSidechain
            ++ uint256Codec.Serialize r.hashWTPrime, obj := r })
    ∧ (∀ r : SidechainWTPrimeState,
      SidechainWTPrimeState.SerializationOp SerAction.CSerActionSerialize { s := [], obj := r }
        = some { s := uint8Codec.Serialize r.nSidechain ++ uint16Codec.Serialize r.nBlocksLeft
            ++ uint16Codec.Serialize r.nWorkScore ++ uint256Codec.Serialize r.hashWTPrime, obj := r })
    ∧ (∀ r : SidechainSpentWTPrime,
      SidechainSpentWTPrime.SerializationOp SerAction.CSerActionSerialize { s := [], obj := r }
        = some { s := uint8Codec.Serialize r.nSidechain ++ uint256Codec.Serialize r.hashWTPrime
            ++ uint256Codec.Serialize r.hashBlock, obj := r })
    ∧ (∀ r : SidechainCTIP,
      SidechainCTIP.SerializationOp SerAction.CSerActionSerialize { s := [], obj := r }
        = some
          { s := COutPoint.codec.Serialize r.out ++ int64Codec.Serialize r.amount, obj := r }) := by
  refine ⟨fun r => ?_, fun Tx txCodec r => ?_, fun r => ?_, fun r => ?_, fun r => ?_, fun r => ?_⟩
  · simpa using SidechainActivationStatus_ser_eq [] r
  · simpa using SidechainDeposit_ser_eq txCodec [] r
  · simpa using SidechainCustomVote_ser_eq [] r
  · simpa using SidechainWTPrimeState_ser_eq [] r
  · simpa using SidechainSpentWTPrime_ser_eq [] r
  · simpa using SidechainCTIP_ser_eq [] r

/-- C5: the integer constants have the values of the constants surface. -/
theorem C5_constants :
    SIDECHAIN_VERIFICATION_PERIOD = 32 ∧ SIDECHAIN_MIN_WORKSCORE = 16
    ∧ SIDECHAIN_ACTIVATION_MAX_FAILURES = 32 ∧ SIDECHAIN_ACTIVATION_MAX_AGE = 64
    ∧ SIDECHAIN_ACTIVATION_MAX_SIGNALS = 32 ∧ SIDECHAIN_ACTIVATION_MAX_ACTIVE = 256
    ∧ SIDECHAIN_VERSION_CURRENT = 0 ∧ SIDECHAIN_VERSION_MAX = 0 := by
  decide

/-- C6: with COIN = 100000000 base units, `0.00001 * COIN` converted to the
integer amount type is 1000 base units, and 100000 such fees make one COIN. -/
theorem C6_deposit_fee (COIN : Int) (h : COIN = 100000000) :
    SIDECHAIN_DEPOSIT_FEE COIN = 1000 ∧ SIDECHAIN_DEPOSIT_FEE COIN * 100000 = COIN := by
  subst h
  rw [deposit_fee_eval]
  decide

/-- C6 at COIN = 100000000. -/
theorem C6_deposit_fee_witness :
    SIDECHAIN_DEPOSIT_FEE 100000000 = 1000
    ∧ SIDECHAIN_DEPOSIT_FEE 100000000 * 100000 = 100000000 :=
  C6_deposit_fee 100000000 rfl

/-- C7: the vote tags are the characters u, d and a (bytes 117, 100 and 97);
they are pairwise distinct, so no byte is two of them at once. -/
theorem C7_vote_tags :
    SCDB_UPVOTE = charLit 'u' ∧ SCDB_DOWNVOTE = charLit 'd' ∧ SCDB_ABSTAIN = charLit 'a'
    ∧ SCDB_UPVOTE.val = 117 ∧ SCDB_DOWNVOTE.val = 100 ∧ SCDB_ABSTAIN.val = 97
    ∧ SCDB_UPVOTE ≠ SCDB_DOWNVOTE ∧ SCDB_UPVOTE ≠ SCDB_ABSTAIN ∧ SCDB_DOWNVOTE ≠ SCDB_ABSTAIN
    ∧ ∀ b : char, ¬ (b = SCDB_UPVOTE ∧ b = SCDB_DOWNVOTE) ∧ ¬ (b = SCDB_UPVOTE ∧ b = SCDB_ABSTAIN)
        ∧ ¬ (b = SCDB_DOWNVOTE ∧ b = SCDB_ABSTAIN) := by
  have hud : SCDB_UPVOTE ≠ SCDB_DOWNVOTE := by decide
  have hua : SCDB_UPVOTE ≠ SCDB_ABSTAIN := by decide
  have hda : SCDB_DOWNVOTE ≠ SCDB_ABSTAIN := by decide
  refine ⟨rfl, rfl, rfl, by decide, by decide, by decide, hud, hua, hda, fun b => ?_⟩
  exact ⟨fun h => hud (h.1.symm.trans h.2), fun h => hua (h.1.symm.trans h.2),
    fun h => hda (h.1.symm.trans h.2)⟩

/-- C8 (as stated, refuted): a 34-byte stream whose vote byte is the character
x, which is none of the three tags, unserializes without error into a vote
record whose `vote` is that byte. -/
theorem C8_unchecked_vote_counterexample :
    SidechainCustomVote.SerializationOp SerAction.CSerActionUnserialize
        { s := charLit 'x' :: 3 :: List.replicate 32 0, obj := SidechainCustomVote.dflt }
      = some { s := [],
               obj := { vote := charLit 'x', nSidechain := 3, hashWTPrime := zeroBlob 32 } }
    ∧ charLit 'x' ≠ SCDB_UPVOTE ∧ charLit 'x' ≠ SCDB_DOWNVOTE ∧ charLit 'x' ≠ SCDB_ABSTAIN := by
  decide

/-- C8 (amended): unserializing a `SidechainCustomVote` does not check the vote
byte: for every vote byte `v`, sidechain byte `n` and 32 hash bytes `h`, the
stream made of them and of any further bytes unserializes to the record with
`vote = v`, `nSidechain = n`, `hashWTPrime = h`, leaving the further bytes. -/
theorem C8_vote_byte_unchecked (v : char) (n : uint8_t) (h : uint256) (rest : List Byte)
    (r0 : SidechainCustomVote) :
    SidechainCustomVote.SerializationOp SerAction.CSerActionUnserialize
        { s := v :: n :: (h.val ++ rest), obj := r0 }
      = some { s := rest, obj := { vote := v, nSidechain := n, hashWTPrime := h } } := by
  have key := SidechainCustomVote_unser_eq { vote := v, nSidechain := n, hashWTPrime := h } r0 rest
  have e1 : charCodec.Serialize v = [v] := leBytes_one v
  have e2 : uint8Codec.Serialize n = [n] := leBytes_one n
  have e3 : uint256Codec.Serialize h = h.val := rfl
  simpa [e1, e2, e3] using key

/-- C9: a slot number is below SIDECHAIN_ACTIVATION_MAX_ACTIVE, every number
from 0 up to that bound is the slot of some `Sidechain`, and a collection of
sidechains with pairwise distinct slots has at most
SIDECHAIN_ACTIVATION_MAX_ACTIVE = 256 entries. -/
theorem C9_active_capacity :
    SIDECHAIN_ACTIVATION_MAX_ACTIVE = 256
    ∧ (∀ sc : Sidechain, (0 : Int) ≤ (sc.nSidechain.val : Int)
        ∧ (sc.nSidechain.val : Int) < SIDECHAIN_ACTIVATION_MAX_ACTIVE)
    ∧ (∀ k : Nat, (k : Int) < SIDECHAIN_ACTIVATION_MAX_ACTIVE →
        ∃ sc : Sidechain, sc.nSidechain.val = k)
    ∧ (∀ l : List Sidechain, (l.map (fun sc => sc.nSidechain)).Nodup →
        (l.length : Int) ≤ SIDECHAIN_ACTIVATION_MAX_ACTIVE) := by
  refine ⟨rfl, fun sc => ⟨by omega, ?_⟩, fun k hk => ?_, fun l hl => ?_⟩
  · have := sc.nSidechain.isLt
    simp only [SIDECHAIN_ACTIVATION_MAX_ACTIVE]
    omega
  · simp only [SIDECHAIN_ACTIVATION_MAX_ACTIVE] at hk
    exact ⟨{ sampleSidechain with nSidechain := ⟨k, by omega⟩ }, rfl⟩
  · have h := hl.length_le_card
    simp only [List.length_map, Fintype.card_fin] at h
    simp only [SIDECHAIN_ACTIVATION_MAX_ACTIVE]
    omega

/-- C9 at a collection of two sidechains in slots 5 and 6. -/
theorem C9_active_capacity_witness :
    ([sampleSidechain, { sampleSidechain with nSidechain := 6 }].map
        (fun sc => sc.nSidechain)).Nodup
    ∧ (([sampleSidechain, { sampleSidechain with nSidechain := 6 }].length : Nat) : Int)
        ≤ SIDECHAIN_ACTIVATION_MAX_ACTIVE :=
  ⟨by decide, C9_active_capacity.2.2.2 _ (by decide)⟩

/-- C10: a bundle's state is created with nBlocksLeft =
SIDECHAIN_VERIFICATION_PERIOD and nWorkScore = 0; after 16 blocks that each
carry an upvote, nWorkScore = 16 and nBlocksLeft = 16, so the state is
confirmed and not expired; after any smaller number of such blocks it is
neither confirmed nor expired, so 16 is the first block count that confirms. -/
theorem C10_confirmed_withdrawal (nSidechain : uint8_t) (hashWTPrime : uint256) :
    ((SidechainWTPrimeState.create nSidechain hashWTPrime).nBlocksLeft.val : Int)
        = SIDECHAIN_VERIFICATION_PERIOD
    ∧ (SidechainWTPrimeState.create nSidechain hashWTPrime).nWorkScore.val = 0
    ∧ (SidechainWTPrimeState.afterUpvotes 16
        (SidechainWTPrimeState.create nSidechain hashWTPrime)).nWorkScore.val = 16
    ∧ (SidechainWTPrimeState.afterUpvotes 16
        (SidechainWTPrimeState.create nSidechain hashWTPrime)).nBlocksLeft.val = 16
    ∧ (SidechainWTPrimeState.afterUpvotes 16
        (SidechainWTPrimeState.create nSidechain hashWTPrime)).isConfirmed = true
    ∧ (SidechainWTPrimeState.afterUpvotes 16
        (SidechainWTPrimeState.create nSidechain hashWTPrime)).isExpired = false
    ∧ ∀ k : Nat, k < 16 →
        (SidechainWTPrimeState.afterUpvotes k
          (SidechainWTPrimeState.create nSidechain hashWTPrime)).isConfirmed = false
        ∧ (SidechainWTPrimeState.afterUpvotes k
          (SidechainWTPrimeState.create nSidechain hashWTPrime)).isExpired = false := by
  obtain ⟨w16, b16⟩ := afterUpvotes_counters nSidechain hashWTPrime 16 (by omega)
  refine ⟨rfl, rfl, w16, b16, ?_, ?_, fun k hk => ?_⟩
  · simp [SidechainWTPrimeState.isConfirmed, SIDECHAIN_MIN_WORKSCORE, w16]
  · simp [SidechainWTPrimeState.isExpired, b16]
  · obtain ⟨wk, bk⟩ := afterUpvotes_counters nSidechain hashWTPrime k (by omega)
    constructor
    · simp only [SidechainWTPrimeState.isConfirmed, SIDECHAIN_MIN_WORKSCORE, wk,
        decide_eq_false_iff_not]
      omega
    · simp only [SidechainWTPrimeState.isExpired, bk, decide_eq_false_iff_not]
      omega

/-- C10 at sidechain 3, after 15 upvoted blocks. -/
theorem C10_confirmed_withdrawal_witness :
    15 < 16
    ∧ (SidechainWTPrimeState.afterUpvotes 15
        (SidechainWTPrimeState.create 3 (zeroBlob 32))).isConfirmed = false
    ∧ (SidechainWTPrimeState.afterUpvotes 15
        (SidechainWTPrimeState.create 3 (zeroBlob 32))).isExpired = false :=
  ⟨by decide, (C10_confirmed_withdrawal 3 (zeroBlob 32)).2.2.2.2.2.2 15 (by decide)⟩

/-- C11: an activation status is created with nAge = 0 and nFail = 0; for a
proposal renewed in every block, after 16 blocks nAge = 16 and nFail = 0 and
the status was not discarded at any of those blocks; it is not discarded at
any block up to the 64th, where nAge = 64, and is discarded at the 65th, the
first block where nAge = 65. -/
theorem C11_activation_tracking (proposal : SidechainProposal) :
    (SidechainActivationStatus.create proposal).nAge.val = 0
    ∧ (SidechainActivationStatus.create proposal).nFail.val = 0
    ∧ (SidechainActivationStatus.afterRenewals 16
        (SidechainActivationStatus.create proposal)).nAge.val = 16
    ∧ (SidechainActivationStatus.afterRenewals 16
        (SidechainActivationStatus.create proposal)).nFail.val = 0
    ∧ (∀ k : Nat, k ≤ 16 →
        (SidechainActivationStatus.afterRenewals k
          (SidechainActivationStatus.create proposal)).isDiscarded = false)
    ∧ (∀ k : Nat, k ≤ 64 →
        (SidechainActivationStatus.afterRenewals k
          (SidechainActivationStatus.create proposal)).nAge.val = k
        ∧ (SidechainActivationStatus.afterRenewals k
          (SidechainActivationStatus.create proposal)).isDiscarded = false)
    ∧ (SidechainActivationStatus.afterRenewals 65
        (SidechainActivationStatus.create proposal)).nAge.val = 65
    ∧ (SidechainActivationStatus.afterRenewals 65
        (SidechainActivationStatus.create proposal)).isDiscarded = true := by
  have key : ∀ k : Nat, k ≤ 64 →
      (SidechainActivationStatus.afterRenewals k
          (SidechainActivationStatus.create proposal)).nAge.val = k
      ∧ (SidechainActivationStatus.afterRenewals k
          (SidechainActivationStatus.create proposal)).isDiscarded = false := by
    intro k hk
    obtain ⟨ha, hf⟩ := afterRenewals_counters proposal k (by omega)
    refine ⟨ha, ?_⟩
    simp only [SidechainActivationStatus.isDiscarded, SIDECHAIN_ACTIVATION_MAX_FAILURES,
      SIDECHAIN_ACTIVATION_MAX_AGE, ha, hf, Bool.or_eq_false_iff, decide_eq_false_iff_not]
    omega
  obtain ⟨a16, f16⟩ := afterRenewals_counters proposal 16 (by omega)
  obtain ⟨a65, f65⟩ := afterRenewals_counters proposal 65 (by omega)
  refine ⟨rfl, rfl, a16, f16, fun k hk => (key k (by omega)).2, key, a65, ?_⟩
  simp only [SidechainActivationStatus.isDiscarded, SIDECHAIN_ACTIVATION_MAX_FAILURES,
    SIDECHAIN_ACTIVATION_MAX_AGE, a65, f65]
  decide

/-- C11 at the sample proposal, at the 16th and at the 64th block. -/
theorem C11_activation_tracking_witness :
    (SidechainActivationStatus.afterRenewals 16
        (SidechainActivationStatus.create sampleProposal)).isDiscarded = false
    ∧ (SidechainActivationStatus.afterRenewals 64
        (SidechainActivationStatus.create sampleProposal)).isDiscarded = false :=
  ⟨(C11_activation_tracking sampleProposal).2.2.2.2.1 16 (by decide),
   ((C11_activation_tracking sampleProposal).2.2.2.2.2.1 64 (by decide)).2⟩

/-- C12: writing a proposal always succeeds, and two proposals for which
`SerializationOp` writes the same bytes have the same nVersion, title,
description, sidechainKeyID, sidechainHex, sidechainPriv, hashID1 and hashID2;
in particular a proposal whose title is extended by bytes taken from the start
of the description is written differently. -/
theorem C12_proposal_encoding_injective (p q : SidechainProposal) :
    (SidechainProposal.SerializationOp SerAction.CSerActionSerialize
        { s := [], obj := p }).isSome = true
    ∧ ((SidechainProposal.SerializationOp SerAction.CSerActionSerialize
            { s := [], obj := p }).map (fun st => st.s)
        = (SidechainProposal.SerializationOp SerAction.CSerActionSerialize
            { s := [], obj := q }).map (fun st => st.s) →
        p.nVersion = q.nVersion ∧ p.title = q.title ∧ p.description = q.description
        ∧ p.sidechainKeyID = q.sidechainKeyID ∧ p.sidechainHex = q.sidechainHex
        ∧ p.sidechainPriv = q.sidechainPriv ∧ p.hashID1 = q.hashID1 ∧ p.hashID2 = q.hashID2)
    ∧ (∀ c : List Byte, c ≠ [] → p.title.val = q.title.val ++ c →
        q.description.val = c ++ p.description.val →
        (SidechainProposal.SerializationOp SerAction.CSerActionSerialize
            { s := [], obj := p }).map (fun st => st.s)
        ≠ (SidechainProposal.SerializationOp SerAction.CSerActionSerialize
            { s := [], obj := q }).map (fun st => st.s)) := by
  refine ⟨?_, fun h => ?_, fun c hc ht _ h => ?_⟩
  · rw [SidechainProposal_ser_eq [] p]
    rfl
  · have e := SidechainProposal_enc_injective p q h
    subst e
    exact ⟨rfl, rfl, rfl, rfl, rfl, rfl, rfl, rfl⟩
  · have e := SidechainProposal_enc_injective p q h
    subst e
    apply hc
    have := congrArg List.length ht
    simp only [List.length_append] at this
    exact List.length_eq_zero.mp (by omega)

/-- C12 at the sample proposal and at the one with the byte 100 moved from the
start of the description to the end of the title. -/
theorem C12_proposal_encoding_injective_witness :
    (SidechainProposal.SerializationOp SerAction.CSerActionSerialize
        { s := [], obj := sampleProposalShifted }).map (fun st => st.s)
      ≠ (SidechainProposal.SerializationOp SerAction.CSerActionSerialize
        { s := [], obj := sampleProposal }).map (fun st => st.s)
    ∧ sampleProposal.title = sampleProposal.title :=
  ⟨(C12_proposal_encoding_injective sampleProposalShifted sampleProposal).2.2 [100]
      (by decide) (by decide) (by decide),
   ((C12_proposal_encoding_injective sampleProposal sampleProposal).2.1 rfl).2.1⟩

/-- C13: the two counters of a `SidechainWTPrimeState` lie in 0..65535;
SIDECHAIN_VERIFICATION_PERIOD and SIDECHAIN_MIN_WORKSCORE keep their values when
stored into a `uint16_t`, so a created state has nBlocksLeft = 32; after the
first `n ≤ 32` blocks, whatever their votes, nBlocksLeft = 32 - n: it is 0
after 32 blocks and positive before, and every one of these decrements takes
exactly one from a positive value, so none wraps. -/
theorem C13_counters_fit (st : SidechainWTPrimeState) (nSidechain : uint8_t)
    (hashWTPrime : uint256) (votes : List char) :
    ((0 : Int) ≤ (st.nWorkScore.val : Int) ∧ (st.nWorkScore.val : Int) ≤ 65535
      ∧ (0 : Int) ≤ (st.nBlocksLeft.val : Int) ∧ (st.nBlocksLeft.val : Int) ≤ 65535)
    ∧ ((toUInt16 SIDECHAIN_VERIFICATION_PERIOD).val : Int) = SIDECHAIN_VERIFICATION_PERIOD
    ∧ ((toUInt16 SIDECHAIN_MIN_WORKSCORE).val : Int) = SIDECHAIN_MIN_WORKSCORE
    ∧ ((SidechainWTPrimeState.create nSidechain hashWTPrime).nBlocksLeft.val : Int)
        = SIDECHAIN_VERIFICATION_PERIOD
    ∧ (votes.length ≤ 32 →
        ((SidechainWTPrimeState.afterVotes votes
            (SidechainWTPrimeState.create nSidechain hashWTPrime)).nBlocksLeft.val : Int)
          = SIDECHAIN_VERIFICATION_PERIOD - (votes.length : Int))
    ∧ (votes.length = 32 →
        (SidechainWTPrimeState.afterVotes votes
            (SidechainWTPrimeState.create nSidechain hashWTPrime)).nBlocksLeft.val = 0)
    ∧ (votes.length < 32 →
        0 < (SidechainWTPrimeState.afterVotes votes
            (SidechainWTPrimeState.create nSidechain hashWTPrime)).nBlocksLeft.val
        ∧ ∀ vote : char,
          ((SidechainWTPrimeState.applyBlock vote
              (SidechainWTPrimeState.afterVotes votes
                (SidechainWTPrimeState.create nSidechain hashWTPrime))).nBlocksLeft.val : Int)
            = ((SidechainWTPrimeState.afterVotes votes
                (SidechainWTPrimeState.create nSidechain hashWTPrime)).nBlocksLeft.val : Int)
              - 1) := by
  have hw := st.nWorkScore.isLt
  have hb := st.nBlocksLeft.isLt
  have h0 : (SidechainWTPrimeState.create nSidechain hashWTPrime).nBlocksLeft.val = 32 := rfl
  have key : votes.length ≤ 32 →
      (SidechainWTPrimeState.afterVotes votes
        (SidechainWTPrimeState.create nSidechain hashWTPrime)).nBlocksLeft.val
        = 32 - votes.length := by
    intro h
    rw [afterVotes_nBlocksLeft votes _ (by rw [h0]; exact h), h0]
  refine ⟨⟨by omega, by omega, by omega, by omega⟩, by decide, by decide, by rw [h0]; decide,
    fun h => ?_, fun h => ?_, fun h => ?_⟩
  · rw [key h]
    simp only [SIDECHAIN_VERIFICATION_PERIOD]
    omega
  · rw [key (by omega)]
    omega
  · have hk := key (by omega)
    have hpos : 0 < (SidechainWTPrimeState.afterVotes votes
        (SidechainWTPrimeState.create nSidechain hashWTPrime)).nBlocksLeft.val := by omega
    exact ⟨hpos, fun vote => applyBlock_nBlocksLeft vote _ hpos⟩

/-- C13 at a created state and 32 abstentions. -/
theorem C13_counters_fit_witness :
    (SidechainWTPrimeState.afterVotes (List.replicate 32 SCDB_ABSTAIN)
        (SidechainWTPrimeState.create 3 (zeroBlob 32))).nBlocksLeft.val = 0
    ∧ 0 < (SidechainWTPrimeState.afterVotes (List.replicate 31 SCDB_ABSTAIN)
        (SidechainWTPrimeState.create 3 (zeroBlob 32))).nBlocksLeft.val :=
  ⟨(C13_counters_fit SidechainWTPrimeState.dflt 3 (zeroBlob 32)
      (List.replicate 32 SCDB_ABSTAIN)).2.2.2.2.2.1 (by decide),
   ((C13_counters_fit SidechainWTPrimeState.dflt 3 (zeroBlob 32)
      (List.replicate 31 SCDB_ABSTAIN)).2.2.2.2.2.2 (by decide)).1⟩

/-- C14: the records made of fixed-width fields are written on a constant
number of bytes: a `SidechainCustomVote` on 34, a `SidechainWTPrimeState` on
37, a `SidechainSpentWTPrime` on 65, a `SidechainCTIP` on 44. -/
theorem C14_fixed_lengths :
    (∀ r : SidechainCustomVote, ∃ w : List Byte,
      SidechainCustomVote.SerializationOp SerAction.CSerActionSerialize { s := [], obj := r }
        = some { s := w, obj := r } ∧ w.length = 34)
    ∧ (∀ r : SidechainWTPrimeState, ∃ w : List Byte,
      SidechainWTPrimeState.SerializationOp SerAction.CSerActionSerialize { s := [], obj := r }
        = some { s := w, obj := r } ∧ w.length = 37)
    ∧ (∀ r : SidechainSpentWTPrime, ∃ w : List Byte,
      SidechainSpentWTPrime.SerializationOp SerAction.CSerActionSerialize { s := [], obj := r }
        = some { s := w, obj := r } ∧ w.length = 65)
    ∧ (∀ r : SidechainCTIP, ∃ w : List Byte,
      SidechainCTIP.SerializationOp SerAction.CSerActionSerialize { s := [], obj := r }
        = some { s := w, obj := r } ∧ w.length = 44) := by
  refine ⟨fun r => ⟨_, SidechainCustomVote_ser_eq [] r, ?_⟩,
    fun r => ⟨_, SidechainWTPrimeState_ser_eq [] r, ?_⟩,
    fun r => ⟨_, SidechainSpentWTPrime_ser_eq [] r, ?_⟩,
    fun r => ⟨_, SidechainCTIP_ser_eq [] r, ?_⟩⟩
  · simp only [List.nil_append, List.length_append, charCodec, uint8Codec, uint256Codec,
      uintCodec_length, blobCodec_length]
  · simp only [List.nil_append, List.length_append, uint8Codec, uint16Codec, uint256Codec,
      uintCodec_length, blobCodec_length]
  · simp only [List.nil_append, List.length_append, uint8Codec, uint256Codec,
      uintCodec_length, blobCodec_length]
  · simp only [List.nil_append, List.length_append, int64Codec, COutPoint_length,
      sintCodec_length]

end Mainchain
